import Mathlib

/-!
Shallow embedding of the nirvana-music-app backend.

The repository is an Express server (`src/server.js`) exposing
`GET /songs`, `POST /songs` (multipart upload to a Supabase storage
bucket followed by a MongoDB metadata save) and `DELETE /songs/:id`
(metadata delete followed by a Supabase storage remove).  Strings are
embedded as `List Char`, raw bytes as `List Nat`, and the outcomes of
the external collaborators (Supabase storage, MongoDB save) are
supplied as explicit oracle inputs so that each handler is a pure
function from request + environment to response, new metadata state
and the trace of blob-store calls.

The range-streaming core (range parser and stream responder) described
by the specification is not present under `src/`; it is modelled from
the contract of the specification (section 4) and marked as such.
-/

namespace Nirvana

/-! ### Character/string utilities mirroring the JavaScript operations -/

/-- JavaScript `s.split(sep)` for a single-character separator, on
character lists.  `""` splits to `[""]`, and a trailing separator
produces a trailing empty segment, exactly as in JavaScript. -/
def splitOnChar (c : Char) : List Char → List (List Char)
  | [] => [[]]
  | a :: as =>
    match splitOnChar c as with
    | [] => [[]]
    | r :: rs => if a = c then [] :: r :: rs else (a :: r) :: rs

/-- JavaScript `arr.pop()` specialised to the use `split("/").pop()`:
returns the last element (the empty string for an empty array, a case
`split` never produces). -/
def jsPop : List (List Char) → List Char
  | [] => []
  | [x] => x
  | _ :: x :: xs => jsPop (x :: xs)

/-- The key passed to the Supabase `remove` call in the delete handler:
`song.url.split("/").pop()` (src/server.js line 121). -/
def blobKey (url : List Char) : List Char :=
  jsPop (splitOnChar '/' url)

/-- Base-10 digit characters, as produced when JavaScript stringifies a
nonnegative integer (`Date.now()` inside a template literal). -/
def natCharsAux : Nat → Nat → List Char → List Char
  | 0, _, acc => acc
  | fuel + 1, n, acc =>
    if n = 0 then acc
    else natCharsAux fuel (n / 10) (Nat.digitChar (n % 10) :: acc)

/-- Decimal representation of a natural number as a character list,
modelling JavaScript number-to-string conversion for nonnegative
integers. -/
def natChars (n : Nat) : List Char :=
  if n = 0 then [Nat.digitChar 0] else natCharsAux n n []

/-- Strict base-10 parse of a character list: every character must be a
digit and the list must be nonempty. -/
def parseNatChars (s : List Char) : Option Nat :=
  if s = [] then none
  else if s.all Char.isDigit then
    some (s.foldl (fun a c => a * 10 + (c.toNat - 48)) 0)
  else none

/-- Drops the literal prefix `p` from `s`, failing when `s` does not
start with `p`. -/
def dropPfx : List Char → List Char → Option (List Char)
  | [], s => some s
  | _ :: _, [] => none
  | p :: ps, c :: cs => if p = c then dropPfx ps cs else none

/-! ### Range parser (modelled from the spec, section 4.1) -/

/-- Outcome of range parsing against a resource of known total size. -/
inductive RangeResult where
  | noRange : RangeResult
  | valid (start stop : Nat) : RangeResult
  | unsat (start : Nat) : RangeResult
  deriving DecidableEq, Repr

/-- Modelled from the spec: the Range Parser of section 4.1 (absent
from `src/`).  Strips the `bytes=` prefix, splits on `-`, parses the
first segment as the start (required, base 10) and the second as the
end when present and nonempty, else defaults the end to `N - 1`.
Returns `none` when the header is unparseable. -/
def parseRangeCore (h : List Char) (N : Nat) : Option (Nat × Nat) :=
  (dropPfx ("bytes=").data h).bind fun rest =>
    match splitOnChar '-' rest with
    | [] => none
    | first :: rest2 =>
      (parseNatChars first).bind fun s =>
        match rest2 with
        | [] => some (s, N - 1)
        | es :: _ =>
          if es = [] then some (s, N - 1)
          else (parseNatChars es).map fun e => (s, e)

/-- Modelled from the spec: full Range Parser contract of section 4.1.
An absent or unparseable header signals "serve full resource"; a
parsed start at or beyond the total size is unsatisfiable. -/
def parseRange (header : Option (List Char)) (N : Nat) : RangeResult :=
  match header with
  | none => RangeResult.noRange
  | some h =>
    match parseRangeCore h N with
    | none => RangeResult.noRange
    | some (s, e) => if N ≤ s then RangeResult.unsat s else RangeResult.valid s e

/-! ### Stream responder (modelled from the spec, section 4.2) -/

/-- Body of a streaming response: either raw bytes read from the
source, or a diagnostic text that never touches the source. -/
inductive StreamBody where
  | bytes (data : List Nat) : StreamBody
  | text (msg : List Char) : StreamBody
  deriving DecidableEq, Repr

/-- A streaming HTTP response: status, headers, body. -/
structure StreamResponse where
  status : Nat
  headers : List (List Char × List Char)
  body : StreamBody
  deriving DecidableEq, Repr

/-- Chunked read of `src` from byte offset `pos` (inclusive) up to
`stop` (exclusive), in chunks of `chunk + 1` bytes, modelling the
bounded-memory chunked transfer of the spec.  `fuel` bounds the
recursion; `fuel = stop` always suffices. -/
def streamChunks (src : List Nat) (chunk : Nat) : Nat → Nat → Nat → List Nat
  | 0, _, _ => []
  | fuel + 1, pos, stop =>
    if pos < stop then
      (src.drop pos).take (min (chunk + 1) (stop - pos)) ++
        streamChunks src chunk fuel (pos + (chunk + 1)) stop
    else []

/-- Modelled from the spec: the 416 diagnostic body "containing the
requested start and the total size". -/
def diagMsg (s N : Nat) : List Char :=
  ("Requested range not satisfiable: start=").data ++ natChars s ++
    (", size=").data ++ natChars N

/-- Modelled from the spec: the Stream Responder contract of section
4.2 (absent from `src/`).  Given the parsed range outcome and the byte
source, emits the 200 / 206 / 416 response with the specified headers;
bytes are emitted through the chunked reader; the 416 branch never
reads the source. -/
def streamRespond (chunk : Nat) (src : List Nat) (r : RangeResult) : StreamResponse :=
  match r with
  | RangeResult.noRange =>
      { status := 200
        headers := [(("Content-Length").data, natChars src.length),
                    (("Content-Type").data, ("audio/mpeg").data)]
        body := StreamBody.bytes (streamChunks src chunk src.length 0 src.length) }
  | RangeResult.valid s e =>
      { status := 206
        headers := [(("Content-Range").data,
                       ("bytes ").data ++ natChars s ++ '-' ::
                         (natChars e ++ '/' :: natChars src.length)),
                    (("Accept-Ranges").data, ("bytes").data),
                    (("Content-Length").data, natChars (e - s + 1)),
                    (("Content-Type").data, ("audio/mpeg").data)]
        body := StreamBody.bytes (streamChunks src chunk (e + 1) s (e + 1)) }
  | RangeResult.unsat s =>
      { status := 416
        headers := []
        body := StreamBody.text (diagMsg s src.length) }

/-- End-to-end streaming route: parse the Range header against the
total size of the source, then respond. -/
def serveStream (chunk : Nat) (header : Option (List Char)) (src : List Nat) : StreamResponse :=
  streamRespond chunk src (parseRange header src.length)

/-! ### The Express routes of `src/server.js` -/

/-- A song metadata record (the mongoose `Song` model, src/server.js
lines 25-31): title, artist, duration from the request body (absent
fields stay unset), plus the store-assigned id and the Supabase public
URL. -/
structure Song where
  id : Nat
  title : Option String
  artist : Option String
  duration : Option String
  url : List Char
  deriving DecidableEq, Repr

/-- The multer file object available as `req.file` in the upload
handler. -/
structure UpFile where
  originalname : List Char
  buffer : List Nat
  mimetype : String
  deriving DecidableEq, Repr

/-- Outcomes of the external collaborator calls, supplied as oracles:
`none` means the call succeeds, `some m` that it fails with vendor
message `m`. -/
structure Env where
  uploadErr : Option String
  saveErr : Option String
  deleteErr : Option String
  deriving DecidableEq, Repr

/-- A blob-store (Supabase storage) network call made by a handler. -/
inductive StorageCall where
  | upload (name : List Char) (bytes : List Nat) : StorageCall
  | remove (key : List Char) : StorageCall
  deriving DecidableEq, Repr

/-- JSON response body of an API route. -/
inductive ApiBody where
  | err (msg : String) (details : Option String) : ApiBody
  | song (s : Song) : ApiBody
  | msg (m : String) : ApiBody
  deriving DecidableEq, Repr

/-- An API route response. -/
structure ApiResponse where
  status : Nat
  body : ApiBody
  deriving DecidableEq, Repr

/-- The unique Supabase object name built in the upload handler
(src/server.js line 58): `Date.now() + "-" + file.originalname`. -/
def mkFilename (now : Nat) (orig : List Char) : List Char :=
  natChars now ++ '-' :: orig

/-- Modelled from the spec: `supabase.storage.from(bucket)
.getPublicUrl(name)` (supabase-js library code, not in `src/`).  The
blob store "returns a retrievable reference (path or URL)"; the public
URL is the base URL of the bucket followed by `/` and the object name. -/
def getPublicUrl (base : List Char) (name : List Char) : List Char :=
  base ++ '/' :: name

/-- The `POST /songs` handler (src/server.js lines 48-105).  Inputs:
oracle `env`, bucket base URL, the value of `Date.now()`, the id the
store will assign, the body fields and `req.file`, and the current
metadata state.  Returns the response, the new metadata state and the
trace of blob-store calls, in order. -/
def postSongs (env : Env) (base : List Char) (now : Nat) (newId : Nat)
    (title artist duration : Option String) (file : Option UpFile)
    (db : List Song) : ApiResponse × List Song × List StorageCall :=
  match file with
  | none => (⟨400, ApiBody.err ("No file uploaded") none⟩, db, [])
  | some f =>
    let filename := mkFilename now f.originalname
    match env.uploadErr with
    | some m =>
        (⟨500, ApiBody.err ("Supabase upload failed") (some m)⟩, db,
          [StorageCall.upload filename f.buffer])
    | none =>
      let newSong : Song :=
        ⟨newId, title, artist, duration, getPublicUrl base filename⟩
      match env.saveErr with
      | some m =>
          (⟨500, ApiBody.err ("Upload failed") (some m)⟩, db,
            [StorageCall.upload filename f.buffer])
      | none =>
          (⟨200, ApiBody.song newSong⟩, db ++ [newSong],
            [StorageCall.upload filename f.buffer])

/-- The `DELETE /songs/:id` handler (src/server.js lines 109-137).
`Song.findByIdAndDelete` is the lookup-and-remove on the metadata
state; when a record is found, the Supabase remove is called with
`song.url.split("/").pop()`. -/
def deleteSongs (env : Env) (id : Nat) (db : List Song) :
    ApiResponse × List Song × List StorageCall :=
  match db.find? (fun s => s.id == id) with
  | none => (⟨404, ApiBody.err ("Song not found") none⟩, db, [])
  | some song =>
    let db2 := db.eraseP (fun s => s.id == id)
    match env.deleteErr with
    | some m =>
        (⟨500, ApiBody.err ("Supabase delete failed") (some m)⟩, db2,
          [StorageCall.remove (blobKey song.url)])
    | none =>
        (⟨200, ApiBody.msg ("Song deleted successfully")⟩, db2,
          [StorageCall.remove (blobKey song.url)])

/-! ### Supporting lemmas -/

theorem streamChunks_eq (src : List Nat) (chunk : Nat) (fuel : Nat) :
    ∀ (pos stop : Nat), stop - pos ≤ fuel →
      streamChunks src chunk fuel pos stop = (src.drop pos).take (stop - pos) := by
  induction fuel with
  | zero =>
    intro pos stop h
    have h0 : stop - pos = 0 := Nat.le_zero.mp h
    simp [streamChunks, h0]
  | succ fuel ih =>
    intro pos stop h
    by_cases hps : pos < stop
    · simp only [streamChunks, if_pos hps]
      rw [ih (pos + (chunk + 1)) stop (by omega)]
      rw [← List.drop_drop]
      by_cases hck : stop - pos ≤ chunk + 1
      · have h1 : min (chunk + 1) (stop - pos) = stop - pos := Nat.min_eq_right hck
        have h2 : stop - (pos + (chunk + 1)) = 0 := by omega
        simp [h1, h2]
      · have h1 : min (chunk + 1) (stop - pos) = chunk + 1 := Nat.min_eq_left (by omega)
        have h2 : stop - (pos + (chunk + 1)) = (stop - pos) - (chunk + 1) := by omega
        rw [h1, h2, ← List.take_add]
        congr 1
        omega
    · have h0 : stop - pos = 0 := by omega
      simp [streamChunks, hps, h0]

theorem streamChunks_full (src : List Nat) (chunk : Nat) :
    streamChunks src chunk src.length 0 src.length = src := by
  rw [streamChunks_eq src chunk _ 0 _ (by omega)]
  simp

theorem digitChar_ne_slash (m : Nat) (h : m < 10) : Nat.digitChar m ≠ '/' := by
  interval_cases m <;> decide

theorem natCharsAux_mem (fuel : Nat) : ∀ (n : Nat) (acc : List Char) (c : Char),
    c ∈ natCharsAux fuel n acc → c ∈ acc ∨ ∃ m, m < 10 ∧ c = Nat.digitChar m := by
  induction fuel with
  | zero =>
    intro n acc c hc
    exact Or.inl hc
  | succ fuel ih =>
    intro n acc c hc
    simp only [natCharsAux] at hc
    by_cases hn : n = 0
    · rw [if_pos hn] at hc
      exact Or.inl hc
    · rw [if_neg hn] at hc
      rcases ih (n / 10) _ c hc with h1 | h1
      · rcases List.mem_cons.mp h1 with h2 | h2
        · exact Or.inr ⟨n % 10, Nat.mod_lt _ (by omega), h2⟩
        · exact Or.inl h2
      · exact Or.inr h1

theorem slash_not_mem_natChars (n : Nat) : '/' ∉ natChars n := by
  intro h
  rw [natChars] at h
  by_cases hn : n = 0
  · rw [if_pos hn] at h
    exact absurd (List.mem_singleton.mp h) (by decide)
  · rw [if_neg hn] at h
    rcases natCharsAux_mem n n [] '/' h with h1 | ⟨m, hm, he⟩
    · exact absurd h1 (List.not_mem_nil '/')
    · exact absurd he.symm (digitChar_ne_slash m hm)

theorem splitOnChar_ne_nil (c : Char) (s : List Char) : splitOnChar c s ≠ [] := by
  induction s with
  | nil => simp [splitOnChar]
  | cons a as ih =>
    simp only [splitOnChar]
    cases hs : splitOnChar c as with
    | nil => exact absurd hs ih
    | cons r rs => by_cases hac : a = c <;> simp [hac]

theorem two_le_length_splitOnChar (c : Char) (s : List Char) (h : c ∈ s) :
    2 ≤ (splitOnChar c s).length := by
  induction s with
  | nil => exact absurd h (List.not_mem_nil c)
  | cons a as ih =>
    simp only [splitOnChar]
    cases hs : splitOnChar c as with
    | nil => exact absurd hs (splitOnChar_ne_nil c as)
    | cons r rs =>
      by_cases hac : a = c
      · simp [hac]
      · have hcas : c ∈ as := by
          rcases List.mem_cons.mp h with h1 | h1
          · exact absurd h1.symm hac
          · exact h1
        have h2 := ih hcas
        rw [hs] at h2
        simp only [if_neg hac, List.length_cons] at h2 ⊢
        omega

theorem jsPop_cons (x : List Char) (rs : List (List Char)) (h : rs ≠ []) :
    jsPop (x :: rs) = jsPop rs := by
  cases rs with
  | nil => exact absurd rfl h
  | cons y ys => rfl

theorem splitOnChar_no_sep (c : Char) (s : List Char) (h : c ∉ s) :
    splitOnChar c s = [s] := by
  induction s with
  | nil => rfl
  | cons a as ih =>
    have hac : ¬ a = c := fun hh => h (by rw [hh]; exact List.mem_cons_self c as)
    have hcas : c ∉ as := fun hh => h (List.mem_cons_of_mem a hh)
    simp [splitOnChar, ih hcas, hac]

theorem splitOnChar_sep_cons (c : Char) (f : List Char) (hf : c ∉ f) :
    splitOnChar c (c :: f) = [[], f] := by
  simp [splitOnChar, splitOnChar_no_sep c f hf]

theorem splitOnChar_append_sep (c : Char) (s : List Char) (h : c ∉ s) :
    splitOnChar c (s ++ [c]) = [s, []] := by
  induction s with
  | nil => simp [splitOnChar]
  | cons a as ih =>
    have hac : ¬ a = c := fun hh => h (by rw [hh]; exact List.mem_cons_self c as)
    have hcas : c ∉ as := fun hh => h (List.mem_cons_of_mem a hh)
    simp [splitOnChar, ih hcas, hac]

theorem jsPop_splitOnChar_cons (c a : Char) (as : List Char) (h : c ∈ as) :
    jsPop (splitOnChar c (a :: as)) = jsPop (splitOnChar c as) := by
  simp only [splitOnChar]
  cases hs : splitOnChar c as with
  | nil => exact absurd hs (splitOnChar_ne_nil c as)
  | cons r rs =>
    have h2 : 2 ≤ (splitOnChar c as).length := two_le_length_splitOnChar c as h
    rw [hs] at h2
    have hrs : rs ≠ [] := by
      intro hnil
      rw [hnil] at h2
      simp at h2
    show jsPop (if a = c then [] :: r :: rs else (a :: r) :: rs) = jsPop (r :: rs)
    by_cases hac : a = c
    · rw [if_pos hac]
      rfl
    · rw [if_neg hac, jsPop_cons (a :: r) rs hrs, jsPop_cons r rs hrs]

theorem blobKey_append (base f : List Char) (hf : '/' ∉ f) :
    blobKey (base ++ '/' :: f) = f := by
  induction base with
  | nil =>
    rw [List.nil_append, blobKey, splitOnChar_sep_cons '/' f hf]
    rfl
  | cons a bs ih =>
    rw [List.cons_append, blobKey, jsPop_splitOnChar_cons '/' a (bs ++ '/' :: f) (by simp)]
    exact ih

theorem slash_not_mem_mkFilename (now : Nat) (orig : List Char) (h : '/' ∉ orig) :
    '/' ∉ mkFilename now orig := by
  intro hmem
  rw [mkFilename] at hmem
  rcases List.mem_append.mp hmem with h1 | h1
  · exact slash_not_mem_natChars now h1
  · rcases List.mem_cons.mp h1 with h2 | h2
    · exact absurd h2 (by decide)
    · exact h h2

theorem parseNatChars_digits (s : List Char) (v : Nat)
    (h : parseNatChars s = some v) : s ≠ [] ∧ ∀ c ∈ s, c.isDigit := by
  rw [parseNatChars] at h
  by_cases hs : s = []
  · rw [if_pos hs] at h
    exact absurd h (by simp)
  · rw [if_neg hs] at h
    by_cases hd : s.all Char.isDigit
    · exact ⟨hs, by simpa [List.all_eq_true] using hd⟩
    · rw [if_neg hd] at h
      exact absurd h (by simp)

theorem dropPfx_append (p s : List Char) : dropPfx p (p ++ s) = some s := by
  induction p with
  | nil => rfl
  | cons a ps ih => simp [dropPfx, ih]

/-! ### Claim theorems -/

/-- C1: for every valid byte range `(s, e)` against a source of total
size `N` with `s ≤ e ≤ N - 1`, the stream responder produces a 206
response whose body is exactly the `e - s + 1` bytes of the source at
offsets `s..e` inclusive, in order, with headers
`Content-Range: bytes s-e/N` and `Content-Length: e-s+1` (for every
chunk size). -/
theorem stream_valid_range_correct (chunk s e : Nat) (src : List Nat)
    (hse : s ≤ e) (heN : e < src.length) :
    (streamRespond chunk src (RangeResult.valid s e)).status = 206 ∧
    (streamRespond chunk src (RangeResult.valid s e)).headers =
      [(("Content-Range").data,
          ("bytes ").data ++ natChars s ++ '-' ::
            (natChars e ++ '/' :: natChars src.length)),
       (("Accept-Ranges").data, ("bytes").data),
       (("Content-Length").data, natChars (e - s + 1)),
       (("Content-Type").data, ("audio/mpeg").data)] ∧
    (streamRespond chunk src (RangeResult.valid s e)).body =
      StreamBody.bytes ((src.drop s).take (e - s + 1)) ∧
    ((src.drop s).take (e - s + 1)).length = e - s + 1 := by
  have hb : streamChunks src chunk (e + 1) s (e + 1) = (src.drop s).take (e - s + 1) := by
    rw [streamChunks_eq src chunk (e + 1) s (e + 1) (by omega)]
    have h1 : e + 1 - s = e - s + 1 := by omega
    rw [h1]
  refine ⟨rfl, rfl, ?_, ?_⟩
  · show StreamBody.bytes (streamChunks src chunk (e + 1) s (e + 1)) = _
    rw [hb]
  · rw [List.length_take, List.length_drop]
    omega

/-- C1 witness: source of 10 bytes, range 2..5, chunk size 2. -/
theorem stream_valid_range_correct_witness :
    2 ≤ 5 ∧ 5 < List.length [10, 11, 12, 13, 14, 15, 16, 17, 18, 19] ∧
    ((streamRespond 1 [10, 11, 12, 13, 14, 15, 16, 17, 18, 19] (RangeResult.valid 2 5)).status = 206 ∧
     (streamRespond 1 [10, 11, 12, 13, 14, 15, 16, 17, 18, 19] (RangeResult.valid 2 5)).headers =
       [(("Content-Range").data,
           ("bytes ").data ++ natChars 2 ++ '-' ::
             (natChars 5 ++ '/' :: natChars (List.length [10, 11, 12, 13, 14, 15, 16, 17, 18, 19]))),
        (("Accept-Ranges").data, ("bytes").data),
        (("Content-Length").data, natChars (5 - 2 + 1)),
        (("Content-Type").data, ("audio/mpeg").data)] ∧
     (streamRespond 1 [10, 11, 12, 13, 14, 15, 16, 17, 18, 19] (RangeResult.valid 2 5)).body =
       StreamBody.bytes ((List.drop 2 [10, 11, 12, 13, 14, 15, 16, 17, 18, 19]).take (5 - 2 + 1)) ∧
     ((List.drop 2 [10, 11, 12, 13, 14, 15, 16, 17, 18, 19]).take (5 - 2 + 1)).length = 5 - 2 + 1) :=
  ⟨by decide, by decide,
    stream_valid_range_correct 1 2 5 [10, 11, 12, 13, 14, 15, 16, 17, 18, 19]
      (by decide) (by decide)⟩

/-- C2: whenever the parsed start of a range request is at or beyond
the total size, the response has status 416 with a diagnostic body
containing the requested start and the total size, and the byte source
is never read: the response is identical for any source of that
size. -/
theorem stream_unsat_416 (chunk : Nat) (header : List Char) (src src2 : List Nat) (s e : Nat)
    (hparse : parseRangeCore header src.length = some (s, e))
    (hs : src.length ≤ s) (hlen : src2.length = src.length) :
    (serveStream chunk (some header) src).status = 416 ∧
    (serveStream chunk (some header) src).body = StreamBody.text (diagMsg s src.length) ∧
    natChars s <:+: diagMsg s src.length ∧
    natChars src.length <:+: diagMsg s src.length ∧
    serveStream chunk (some header) src2 = serveStream chunk (some header) src := by
  have hpr : parseRange (some header) src.length = RangeResult.unsat s := by
    rw [parseRange, hparse]
    show (if src.length ≤ s then RangeResult.unsat s else RangeResult.valid s e) =
      RangeResult.unsat s
    rw [if_pos hs]
  have hpr2 : parseRange (some header) src2.length = RangeResult.unsat s := by
    rw [hlen]
    exact hpr
  refine ⟨?_, ?_, ?_, ?_, ?_⟩
  · rw [serveStream, hpr]
    rfl
  · rw [serveStream, hpr]
    rfl
  · exact ⟨("Requested range not satisfiable: start=").data,
      (", size=").data ++ natChars src.length, by simp [diagMsg]⟩
  · exact ⟨("Requested range not satisfiable: start=").data ++ natChars s ++ (", size=").data,
      [], by simp [diagMsg]⟩
  · simp only [serveStream, hpr, hpr2, streamRespond, hlen]

/-- C2 witness: header `bytes=5-` against sources of 3 bytes. -/
theorem stream_unsat_416_witness :
    parseRangeCore (("bytes=5-").data) (List.length [1, 2, 3]) = some (5, List.length [1, 2, 3] - 1) ∧
    List.length [1, 2, 3] ≤ 5 ∧ List.length ([7, 8, 9] : List Nat) = List.length [1, 2, 3] ∧
    ((serveStream 0 (some (("bytes=5-").data)) [1, 2, 3]).status = 416 ∧
     (serveStream 0 (some (("bytes=5-").data)) [1, 2, 3]).body =
       StreamBody.text (diagMsg 5 (List.length [1, 2, 3])) ∧
     natChars 5 <:+: diagMsg 5 (List.length [1, 2, 3]) ∧
     natChars (List.length [1, 2, 3]) <:+: diagMsg 5 (List.length [1, 2, 3]) ∧
     serveStream 0 (some (("bytes=5-").data)) [7, 8, 9] =
       serveStream 0 (some (("bytes=5-").data)) [1, 2, 3]) :=
  ⟨by decide, by decide, by decide,
    stream_unsat_416 0 (("bytes=5-").data) [1, 2, 3] [7, 8, 9] 5 (List.length [1, 2, 3] - 1)
      (by decide) (by decide) (by decide)⟩

/-- C7: a request with no Range header (or an unparseable one) is
answered 200 with a `Content-Length` header equal to the total size,
`Content-Type: audio/mpeg`, and the full byte sequence of the source
emitted in order (for every chunk size). -/
theorem stream_no_range_200 (chunk : Nat) (header : Option (List Char)) (src : List Nat)
    (h : parseRange header src.length = RangeResult.noRange) :
    (serveStream chunk header src).status = 200 ∧
    (serveStream chunk header src).headers =
      [(("Content-Length").data, natChars src.length),
       (("Content-Type").data, ("audio/mpeg").data)] ∧
    (serveStream chunk header src).body = StreamBody.bytes src := by
  refine ⟨?_, ?_, ?_⟩
  · rw [serveStream, h]
    rfl
  · rw [serveStream, h]
    rfl
  · rw [serveStream, h]
    show StreamBody.bytes (streamChunks src chunk src.length 0 src.length) = _
    rw [streamChunks_full]

/-- C7 witness: absent header against a source of 3 bytes. -/
theorem stream_no_range_200_witness :
    parseRange none (List.length [3, 4, 5]) = RangeResult.noRange ∧
    ((serveStream 0 none [3, 4, 5]).status = 200 ∧
     (serveStream 0 none [3, 4, 5]).headers =
       [(("Content-Length").data, natChars (List.length [3, 4, 5])),
        (("Content-Type").data, ("audio/mpeg").data)] ∧
     (serveStream 0 none [3, 4, 5]).body = StreamBody.bytes [3, 4, 5]) :=
  ⟨by decide, stream_no_range_200 0 none [3, 4, 5] (by decide)⟩

/-- C8: a range request of the form `bytes=<start>-` (second segment
omitted) against a resource of total size `N` parses to a range whose
end is `N - 1`. -/
theorem parse_omitted_end_defaults (ds : List Char) (N v : Nat)
    (hds : parseNatChars ds = some v) :
    parseRangeCore (("bytes=").data ++ (ds ++ ['-'])) N = some (v, N - 1) := by
  obtain ⟨hne, hdig⟩ := parseNatChars_digits ds v hds
  have hnd : '-' ∉ ds := by
    intro hm
    have hd := hdig _ hm
    exact absurd hd (by decide)
  rw [parseRangeCore, dropPfx_append]
  simp only [Option.some_bind]
  rw [splitOnChar_append_sep '-' ds hnd]
  simp [hds]

/-- C8 witness: `bytes=900-` against a 1000-byte resource parses to
the range `(900, 999)`. -/
theorem parse_omitted_end_defaults_witness :
    parseNatChars (("900").data) = some 900 ∧
    parseRangeCore (("bytes=").data ++ (("900").data ++ ['-'])) 1000 = some (900, 1000 - 1) :=
  ⟨by decide, parse_omitted_end_defaults (("900").data) 1000 900 (by decide)⟩

/-- C3: in the upload route the blob write precedes the metadata save;
when the blob upload fails, the response is 500, the upload was the
only storage call, and the metadata state is unchanged. -/
theorem post_upload_fail_no_metadata (env : Env) (base : List Char) (now newId : Nat)
    (title artist duration : Option String) (f : UpFile) (db : List Song) (m : String)
    (hup : env.uploadErr = some m) :
    (postSongs env base now newId title artist duration (some f) db).1.status = 500 ∧
    (postSongs env base now newId title artist duration (some f) db).2.1 = db ∧
    (postSongs env base now newId title artist duration (some f) db).2.2 =
      [StorageCall.upload (mkFilename now f.originalname) f.buffer] := by
  simp [postSongs, hup]

/-- C3 witness: a failing upload of a concrete file. -/
theorem post_upload_fail_no_metadata_witness :
    (Env.mk (some ("boom")) none none).uploadErr = some ("boom") ∧
    ((postSongs (Env.mk (some ("boom")) none none) (("b").data) 7 1 none none none
        (some (UpFile.mk (("a.mp3").data) [1, 2] "audio/mpeg")) []).1.status = 500 ∧
     (postSongs (Env.mk (some ("boom")) none none) (("b").data) 7 1 none none none
        (some (UpFile.mk (("a.mp3").data) [1, 2] "audio/mpeg")) []).2.1 = [] ∧
     (postSongs (Env.mk (some ("boom")) none none) (("b").data) 7 1 none none none
        (some (UpFile.mk (("a.mp3").data) [1, 2] "audio/mpeg")) []).2.2 =
       [StorageCall.upload (mkFilename 7 (("a.mp3").data))
          (UpFile.mk (("a.mp3").data) [1, 2] "audio/mpeg").buffer]) :=
  ⟨rfl, post_upload_fail_no_metadata (Env.mk (some ("boom")) none none) (("b").data) 7 1
    none none none (UpFile.mk (("a.mp3").data) [1, 2] "audio/mpeg") [] "boom" rfl⟩

/-- C4: an upload request without a file is answered 400 and a delete
of an id with no record is answered 404, in both cases with no
blob-store call. -/
theorem validation_before_storage (env : Env) (base : List Char) (now newId : Nat)
    (title artist duration : Option String) (db : List Song) (id : Nat)
    (hid : db.find? (fun s => s.id == id) = none) :
    ((postSongs env base now newId title artist duration none db).1.status = 400 ∧
     (postSongs env base now newId title artist duration none db).2.2 = []) ∧
    ((deleteSongs env id db).1.status = 404 ∧
     (deleteSongs env id db).2.2 = []) := by
  refine ⟨⟨rfl, rfl⟩, ?_⟩
  simp [deleteSongs, hid]

/-- C4 witness: empty upload and a delete of id 3 against a one-song
store. -/
theorem validation_before_storage_witness :
    [Song.mk 1 none none none (("u").data)].find? (fun s => s.id == 3) = none ∧
    (((postSongs (Env.mk none none none) (("b").data) 7 1 none none none none
        [Song.mk 1 none none none (("u").data)]).1.status = 400 ∧
      (postSongs (Env.mk none none none) (("b").data) 7 1 none none none none
        [Song.mk 1 none none none (("u").data)]).2.2 = []) ∧
     ((deleteSongs (Env.mk none none none) 3 [Song.mk 1 none none none (("u").data)]).1.status = 404 ∧
      (deleteSongs (Env.mk none none none) 3 [Song.mk 1 none none none (("u").data)]).2.2 = [])) :=
  ⟨by decide, validation_before_storage (Env.mk none none none) (("b").data) 7 1
    none none none [Song.mk 1 none none none (("u").data)] 3 (by decide)⟩

/-- C5: deleting an id with no metadata record returns 404, mutates no
state and performs no blob-store call. -/
theorem delete_not_found_no_side_effects (env : Env) (db : List Song) (id : Nat)
    (hid : db.find? (fun s => s.id == id) = none) :
    (deleteSongs env id db).1.status = 404 ∧
    (deleteSongs env id db).2.1 = db ∧
    (deleteSongs env id db).2.2 = [] := by
  simp [deleteSongs, hid]

/-- C5 witness: delete of id 9 against a one-song store. -/
theorem delete_not_found_no_side_effects_witness :
    [Song.mk 1 none none none (("u").data)].find? (fun s => s.id == 9) = none ∧
    ((deleteSongs (Env.mk none none (some ("x"))) 9 [Song.mk 1 none none none (("u").data)]).1.status = 404 ∧
     (deleteSongs (Env.mk none none (some ("x"))) 9 [Song.mk 1 none none none (("u").data)]).2.1 =
       [Song.mk 1 none none none (("u").data)] ∧
     (deleteSongs (Env.mk none none (some ("x"))) 9 [Song.mk 1 none none none (("u").data)]).2.2 = []) :=
  ⟨by decide, delete_not_found_no_side_effects (Env.mk none none (some ("x")))
    [Song.mk 1 none none none (("u").data)] 9 (by decide)⟩

/-- C6: deleting an existing record removes the metadata record first
and calls the blob store second; the response is 200 when the blob
deletion succeeds and 500 carrying the vendor detail when it fails, and
in both cases the metadata record is already removed and not
restored. -/
theorem delete_metadata_first_blob_second (env : Env) (db : List Song) (id : Nat) (song : Song)
    (hfind : db.find? (fun s => s.id == id) = some song) :
    (deleteSongs env id db).2.2 = [StorageCall.remove (blobKey song.url)] ∧
    (deleteSongs env id db).2.1 = db.eraseP (fun s => s.id == id) ∧
    (deleteSongs env id db).1 =
      (match env.deleteErr with
       | none => (⟨200, ApiBody.msg ("Song deleted successfully")⟩ : ApiResponse)
       | some m => ⟨500, ApiBody.err ("Supabase delete failed") (some m)⟩) := by
  rcases henv : env.deleteErr with _ | m <;> simp [deleteSongs, hfind, henv]

/-- C6 witness: delete of the only record, with a failing blob
deletion. -/
theorem delete_metadata_first_blob_second_witness :
    [Song.mk 1 none none none (("a/b").data)].find? (fun s => s.id == 1) =
      some (Song.mk 1 none none none (("a/b").data)) ∧
    ((deleteSongs (Env.mk none none (some ("nope"))) 1 [Song.mk 1 none none none (("a/b").data)]).2.2 =
       [StorageCall.remove (blobKey (("a/b").data))] ∧
     (deleteSongs (Env.mk none none (some ("nope"))) 1 [Song.mk 1 none none none (("a/b").data)]).2.1 =
       [Song.mk 1 none none none (("a/b").data)].eraseP (fun s => s.id == 1) ∧
     (deleteSongs (Env.mk none none (some ("nope"))) 1 [Song.mk 1 none none none (("a/b").data)]).1 =
       (match (Env.mk none none (some ("nope"))).deleteErr with
        | none => (⟨200, ApiBody.msg ("Song deleted successfully")⟩ : ApiResponse)
        | some m => ⟨500, ApiBody.err ("Supabase delete failed") (some m)⟩)) :=
  ⟨by decide, delete_metadata_first_blob_second (Env.mk none none (some ("nope")))
    [Song.mk 1 none none none (("a/b").data)] 1
    (Song.mk 1 none none none (("a/b").data)) (by decide)⟩

/-- C9: an upload with a file present is persisted and answered 200
for arbitrary (present or absent) title, artist and duration fields,
when the storage and save calls succeed. -/
theorem post_optional_fields_ok (env : Env) (base : List Char) (now newId : Nat)
    (title artist duration : Option String) (f : UpFile) (db : List Song)
    (hup : env.uploadErr = none) (hsv : env.saveErr = none) :
    (postSongs env base now newId title artist duration (some f) db).1 =
      ⟨200, ApiBody.song (Song.mk newId title artist duration
        (getPublicUrl base (mkFilename now f.originalname)))⟩ ∧
    (postSongs env base now newId title artist duration (some f) db).2.1 =
      db ++ [Song.mk newId title artist duration
        (getPublicUrl base (mkFilename now f.originalname))] := by
  simp [postSongs, hup, hsv]

/-- C9 witness: upload with title, artist and duration all absent. -/
theorem post_optional_fields_ok_witness :
    (Env.mk none none none).uploadErr = none ∧ (Env.mk none none none).saveErr = none ∧
    ((postSongs (Env.mk none none none) (("b").data) 7 1 none none none
        (some (UpFile.mk (("a.mp3").data) [1] "audio/mpeg")) []).1 =
       ⟨200, ApiBody.song (Song.mk 1 none none none
         (getPublicUrl (("b").data) (mkFilename 7 (("a.mp3").data))))⟩ ∧
     (postSongs (Env.mk none none none) (("b").data) 7 1 none none none
        (some (UpFile.mk (("a.mp3").data) [1] "audio/mpeg")) []).2.1 =
       [] ++ [Song.mk 1 none none none
         (getPublicUrl (("b").data) (mkFilename 7 (("a.mp3").data)))]) :=
  ⟨rfl, rfl, post_optional_fields_ok (Env.mk none none none) (("b").data) 7 1
    none none none (UpFile.mk (("a.mp3").data) [1] "audio/mpeg") [] rfl rfl⟩

/-- C10: the blob key used when deleting a song created by the upload
route — the substring of the stored url after its final `/` — equals
the filename used at upload time, provided the uploaded file and its
original name contains no `/`. -/
theorem upload_delete_key_roundtrip (env env2 : Env) (base : List Char) (now newId : Nat)
    (title artist duration : Option String) (f : UpFile) (db : List Song)
    (hslash : '/' ∉ f.originalname)
    (hup : env.uploadErr = none) (hsv : env.saveErr = none)
    (hfresh : db.find? (fun s => s.id == newId) = none) :
    (deleteSongs env2 newId
        (postSongs env base now newId title artist duration (some f) db).2.1).2.2 =
      [StorageCall.remove (mkFilename now f.originalname)] := by
  have hdb : (postSongs env base now newId title artist duration (some f) db).2.1 =
      db ++ [Song.mk newId title artist duration
        (getPublicUrl base (mkFilename now f.originalname))] := by
    simp [postSongs, hup, hsv]
  rw [hdb]
  have hfind : (db ++ [Song.mk newId title artist duration
      (getPublicUrl base (mkFilename now f.originalname))]).find? (fun s => s.id == newId) =
      some (Song.mk newId title artist duration
        (getPublicUrl base (mkFilename now f.originalname))) := by
    rw [List.find?_append, hfresh]
    simp [List.find?]
  have hkey : blobKey (getPublicUrl base (mkFilename now f.originalname)) =
      mkFilename now f.originalname := by
    rw [getPublicUrl]
    exact blobKey_append base _ (slash_not_mem_mkFilename now f.originalname hslash)
  rcases henv : env2.deleteErr with _ | m <;> simp [deleteSongs, hfind, henv, hkey]

/-- C10 witness: concrete upload of `song.mp3` at time 5 and its
subsequent deletion. -/
theorem upload_delete_key_roundtrip_witness :
    '/' ∉ (("song.mp3").data) ∧
    (Env.mk none none none).uploadErr = none ∧ (Env.mk none none none).saveErr = none ∧
    ([] : List Song).find? (fun s => s.id == 1) = none ∧
    (deleteSongs (Env.mk none none none) 1
        (postSongs (Env.mk none none none) (("https://x").data) 5 1 none none none
          (some (UpFile.mk (("song.mp3").data) [1, 2, 3] "audio/mpeg")) []).2.1).2.2 =
      [StorageCall.remove (mkFilename 5 (("song.mp3").data))] :=
  ⟨by decide, rfl, rfl, rfl,
    upload_delete_key_roundtrip (Env.mk none none none) (Env.mk none none none)
      (("https://x").data) 5 1 none none none
      (UpFile.mk (("song.mp3").data) [1, 2, 3] "audio/mpeg") []
      (by decide) rfl rfl rfl⟩

end Nirvana
